import Mathlib

/-!
Shallow embedding of the validator trust-score pallet
(`src/pallets/trust-score/src/lib.rs`).

Modelling conventions:
- `T::AccountId` is modelled as `ℕ` (an opaque, decidable identity).
- `f32` trust scores are modelled as real numbers `ℝ`; the constant
  `core::f32::consts::E` raised to a power, `E.powf(x)`, is `Real.exp x`.
- The storage map `TrustScores` is a function `AccountId → Option NodeTrustData`;
  the storage value `ValidatorList` is a `List AccountId`.
- `deposit_event` is modelled by appending to an event list carried in the state.
- `u32` counters are modelled as `ℕ` (no claim involves values near `2^32`).
- `block_number().saturated_into::<u32>()` is an external input; each mutating
  operation takes the current (already saturated) block number `now : ℕ`.
- Dispatchable calls return `Except TrustError TrustState`: `.ok st1` is
  `Ok(())` together with the storage state after the call, `.error e` is
  `Err(e)` with the storage rolled back (unchanged), matching `try_mutate`.
- The `ensure_signed(origin)` check is an external collaborator and the caller
  identity is unused by every operation, so `origin` is omitted.
-/

namespace TrustScore

abbrev AccountId := ℕ

/-- Rust struct `NodeTrustData<AccountId>` from the source. -/
structure NodeTrustData where
  validator : AccountId
  trust_score : ℝ
  successful_validations : ℕ
  failed_validations : ℕ
  last_updated : ℕ
  flagged_for_removal : Bool

/-- Events from `decl_event!`.  The source declares the score payload as `u32`
but deposits the `f32` field `trust_score` into it; following the spec
canonicalisation, the payload here is the real-valued score. -/
inductive Event where
  | TrustScoreUpdated : AccountId → ℝ → Event
  | ValidatorAdded : AccountId → Event
  | ValidatorRemoved : AccountId → Event
  | ValidationSuccessful : AccountId → ℝ → Event
  | ValidationFailed : AccountId → ℝ → Event

/-- Errors from `decl_error!`.  Note there is no `AlreadyExists` variant in
the source. -/
inductive TrustError where
  | ValidatorNotFound : TrustError
  | TrustScoreTooLow : TrustError
  | InvalidTrustScore : TrustError
deriving DecidableEq

/-- Storage of the pallet plus the deposited events. -/
structure TrustState where
  trustScores : AccountId → Option NodeTrustData
  validatorList : List AccountId
  events : List Event

/-- Genesis: empty `TrustScores` map, empty `ValidatorList`, no events. -/
def emptyState : TrustState :=
  { trustScores := fun _ => none, validatorList := [], events := [] }

/-- Source `increase_fn`:
`0.001_f32 * (0.5_f32 * E.powf(2.5_f32 * trust_score))`. -/
noncomputable def increase_fn (trust_score : ℝ) : ℝ :=
  0.001 * (0.5 * Real.exp (2.5 * trust_score))

/-- Source `decrease_fn`:
`0.001_f32 * (1.0_f32 - (1.0_f32 / (1.0_f32 - 2.5_f32 * trust_score)))`. -/
noncomputable def decrease_fn (trust_score : ℝ) : ℝ :=
  0.001 * (1 - 1 / (1 - 2.5 * trust_score))

/-- Storage write `TrustScores::<T>::insert(&validator, &data)`: unconditional
overwrite of the entry at `validator`. -/
def insertScore (validator : AccountId) (data : NodeTrustData) (st : TrustState) :
    TrustState :=
  { st with trustScores := fun a => if a = validator then some data else st.trustScores a }

/-- Dispatchable `initialize_validator`: builds a fresh record (score `0.5`,
zero counters, not flagged), inserts it into `TrustScores` (overwriting any
existing entry), pushes the id onto `ValidatorList`, deposits
`ValidatorAdded`, returns `Ok(())`.  There is no presence check in the
source. -/
def initialize_validator (now : ℕ) (validator : AccountId) (st : TrustState) :
    Except TrustError TrustState :=
  let initial_trust_data : NodeTrustData :=
    { validator := validator, trust_score := 0.5, successful_validations := 0,
      failed_validations := 0, last_updated := now, flagged_for_removal := false }
  let st1 := insertScore validator initial_trust_data st
  .ok { st1 with
        validatorList := st1.validatorList ++ [validator],
        events := st1.events ++ [Event.ValidatorAdded validator] }

/-- Dispatchable `update_trust_score`, as the net effect of the `try_mutate`
closure: an absent id fails `ValidatorNotFound` with nothing changed; a
flagged record is an early `Ok(())` with nothing changed and no events;
otherwise the score is updated per branch (`.min(1.0)` on success,
`.max(0.0)` on failure), the matching counter incremented, the record
possibly flagged (failure branch, new score `< 0.1`, depositing
`ValidatorRemoved` right there), `last_updated` set to `now`, and the branch
events deposited in source order. -/
noncomputable def update_trust_score (now : ℕ) (validator : AccountId)
    (vote_matched : Bool) (st : TrustState) : Except TrustError TrustState :=
  match st.trustScores validator with
  | none => .error TrustError.ValidatorNotFound
  | some trust_data =>
    if trust_data.flagged_for_removal then
      .ok st
    else if vote_matched then
      let td' : NodeTrustData :=
        { trust_data with
          trust_score := min (trust_data.trust_score + increase_fn trust_data.trust_score) 1,
          successful_validations := trust_data.successful_validations + 1,
          last_updated := now }
      .ok { insertScore validator td' st with
            events := st.events ++
              [Event.ValidationSuccessful validator td'.trust_score,
               Event.TrustScoreUpdated validator td'.trust_score] }
    else
      let td' : NodeTrustData :=
        { trust_data with
          trust_score := max (trust_data.trust_score - decrease_fn trust_data.trust_score) 0,
          failed_validations := trust_data.failed_validations + 1,
          last_updated := now }
      if td'.trust_score < 0.1 then
        .ok { insertScore validator { td' with flagged_for_removal := true } st with
              events := st.events ++
                [Event.ValidatorRemoved validator,
                 Event.ValidationFailed validator td'.trust_score,
                 Event.TrustScoreUpdated validator td'.trust_score] }
      else
        .ok { insertScore validator td' st with
              events := st.events ++
                [Event.ValidationFailed validator td'.trust_score,
                 Event.TrustScoreUpdated validator td'.trust_score] }

/-- The first `remove_validator` in the source (conditional on the flag): if
the record exists and is flagged, delete the `TrustScores` entry, retain all
other ids in `ValidatorList`, and deposit `ValidatorRemoved`. -/
def remove_validator (validator : AccountId) (st : TrustState) : TrustState :=
  match st.trustScores validator with
  | some trust_data =>
    if trust_data.flagged_for_removal then
      { trustScores := fun a => if a = validator then none else st.trustScores a,
        validatorList := st.validatorList.filter (fun v => v ≠ validator),
        events := st.events ++ [Event.ValidatorRemoved validator] }
    else st
  | none => st

/-- The second, duplicate `remove_validator` in the source (unconditional).
On every call site of `cleanup_validators` the argument record exists and is
flagged, where both versions agree. -/
def remove_validator_unconditional (validator : AccountId) (st : TrustState) :
    TrustState :=
  { trustScores := fun a => if a = validator then none else st.trustScores a,
    validatorList := st.validatorList.filter (fun v => v ≠ validator),
    events := st.events ++ [Event.ValidatorRemoved validator] }

/-- Storage effect of `cleanup_validators`: collect every id in
`ValidatorList` whose record is flagged (`unwrap_or(false)` on a missing
record), then remove them one by one. -/
def cleanupState (st : TrustState) : TrustState :=
  let validators_to_remove := st.validatorList.filter (fun v =>
    match st.trustScores v with
    | some data => data.flagged_for_removal
    | none => false)
  validators_to_remove.foldl (fun s v => remove_validator v s) st

/-- Dispatchable `cleanup_validators`: always returns `Ok(())`. -/
def cleanup_validators (st : TrustState) : Except TrustError TrustState :=
  .ok (cleanupState st)

/-- Query `get_trust_score`:
`Self::trust_scores(validator).map(|data| data.trust_score)`. -/
def get_trust_score (validator : AccountId) (st : TrustState) : Option ℝ :=
  (st.trustScores validator).map (fun data => data.trust_score)

/-- Query `get_validators_by_trust`: pair every roster id with its resolvable
score, then `sort_by(|a, b| b.1.cmp(&a.1))`, i.e. a stable sort by descending
score. -/
noncomputable def get_validators_by_trust (st : TrustState) :
    List (AccountId × ℝ) :=
  let validators := st.validatorList.filterMap (fun validator =>
    (get_trust_score validator st).map (fun score => (validator, score)))
  validators.mergeSort (fun a b => decide (b.2 ≤ a.2))

/-- States reachable from genesis by completed dispatchable calls. -/
inductive Reachable : TrustState → Prop where
  | empty : Reachable emptyState
  | init (now : ℕ) (v : AccountId) (st st' : TrustState) :
      Reachable st → initialize_validator now v st = .ok st' → Reachable st'
  | update (now : ℕ) (v : AccountId) (b : Bool) (st st' : TrustState) :
      Reachable st → update_trust_score now v b st = .ok st' → Reachable st'
  | cleanup (st st' : TrustState) :
      Reachable st → cleanup_validators st = .ok st' → Reachable st'

/-- Recogniser for a `ValidatorRemoved` event carrying identity `v`. -/
def isValidatorRemoved (v : AccountId) : Event → Bool
  | Event.ValidatorRemoved w => w == v
  | _ => false

/-- Consistency of the two collections: the roster ids are exactly the keys
of the trust ledger. -/
def RosterLedgerConsistent (st : TrustState) : Prop :=
  ∀ w : AccountId, w ∈ st.validatorList ↔ (st.trustScores w).isSome

/-- A freshly initialized record for validator `1` at block `0`. -/
def tdInit : NodeTrustData :=
  { validator := 1, trust_score := 0.5, successful_validations := 0,
    failed_validations := 0, last_updated := 0, flagged_for_removal := false }

/-- State after `initialize_validator(1)` on the empty state at block `0`. -/
def stInit1 : TrustState :=
  { trustScores := fun a => if a = 1 then some tdInit else none,
    validatorList := [1], events := [Event.ValidatorAdded 1] }

/-- A ledger state holding one unflagged validator whose score `0.3999` sits
just below the pole of `decrease_fn` at `0.4`. -/
def stC1 : TrustState :=
  { trustScores := fun a =>
      if a = 1 then
        some { validator := 1, trust_score := 0.3999, successful_validations := 0,
               failed_validations := 0, last_updated := 0, flagged_for_removal := false }
      else none,
    validatorList := [1], events := [] }

/-- An unflagged record at score `0.2`, inside the misbehaving region
`(0, 0.4)` of `decrease_fn`. -/
def tdLow : NodeTrustData :=
  { validator := 1, trust_score := 0.2, successful_validations := 0,
    failed_validations := 0, last_updated := 0, flagged_for_removal := false }

/-- A ledger state holding only the record `tdLow`. -/
def stLow : TrustState :=
  { trustScores := fun a => if a = 1 then some tdLow else none,
    validatorList := [1], events := [] }

/-- A record already flagged for removal. -/
def tdFlag : NodeTrustData :=
  { validator := 1, trust_score := 0.05, successful_validations := 0,
    failed_validations := 3, last_updated := 4, flagged_for_removal := true }

/-- A ledger state holding only the flagged record `tdFlag`. -/
def stFlag : TrustState :=
  { trustScores := fun a => if a = 1 then some tdFlag else none,
    validatorList := [1], events := [] }

/-- An unflagged record at score `0.05`: one more failing vote keeps the
score below `0.1`, so the update flags it. -/
def tdTiny : NodeTrustData :=
  { validator := 1, trust_score := 0.05, successful_validations := 0,
    failed_validations := 0, last_updated := 0, flagged_for_removal := false }

/-- A ledger state holding only the record `tdTiny`. -/
def stTiny : TrustState :=
  { trustScores := fun a => if a = 1 then some tdTiny else none,
    validatorList := [1], events := [] }

/-- Two validators, scores `0.7` and `0.3`, roster listing the low one
first. -/
def stC8 : TrustState :=
  { trustScores := fun a =>
      if a = 1 then
        some { validator := 1, trust_score := 0.7, successful_validations := 0,
               failed_validations := 0, last_updated := 0, flagged_for_removal := false }
      else if a = 2 then
        some { validator := 2, trust_score := 0.3, successful_validations := 0,
               failed_validations := 0, last_updated := 0, flagged_for_removal := false }
      else none,
    validatorList := [2, 1], events := [] }

/-! Helper lemmas about `remove_validator` and the cleanup fold. -/

lemma remove_validator_of_none {v : AccountId} {st : TrustState}
    (h : st.trustScores v = none) : remove_validator v st = st := by
  simp only [remove_validator, h]

lemma remove_validator_other_entry (w : AccountId) (st : TrustState) {v : AccountId}
    (hne : v ≠ w) : (remove_validator w st).trustScores v = st.trustScores v := by
  simp only [remove_validator]
  cases hw : st.trustScores w with
  | none => rfl
  | some td =>
    by_cases hf : td.flagged_for_removal
    · simp [hf, hne]
    · simp [hf]

lemma remove_validator_not_mem (w : AccountId) (st : TrustState) {v : AccountId}
    (h : v ∉ st.validatorList) : v ∉ (remove_validator w st).validatorList := by
  simp only [remove_validator]
  cases hw : st.trustScores w with
  | none => exact h
  | some td =>
    by_cases hf : td.flagged_for_removal
    · simp only [hf, if_true]
      intro hmem
      exact h (List.mem_of_mem_filter hmem)
    · simp only [hf, Bool.false_eq_true, if_false]; exact h

lemma remove_validator_countP_other (w : AccountId) (st : TrustState) {v : AccountId}
    (hne : v ≠ w) :
    ((remove_validator w st).events).countP (isValidatorRemoved v) =
      st.events.countP (isValidatorRemoved v) := by
  simp only [remove_validator]
  cases hw : st.trustScores w with
  | none => rfl
  | some td =>
    by_cases hf : td.flagged_for_removal
    · simp only [hf, if_true, List.countP_append]
      have : isValidatorRemoved v (Event.ValidatorRemoved w) = false := by
        simp [isValidatorRemoved, Ne.symm hne]
      simp [List.countP, List.countP.go, this]
    · simp [hf]

lemma foldl_remove_of_none (L : List AccountId) (st : TrustState) (v : AccountId)
    (h : st.trustScores v = none) :
    (L.foldl (fun s w => remove_validator w s) st).trustScores v = none ∧
    (L.foldl (fun s w => remove_validator w s) st).events.countP (isValidatorRemoved v) =
      st.events.countP (isValidatorRemoved v) ∧
    (v ∉ st.validatorList →
      v ∉ (L.foldl (fun s w => remove_validator w s) st).validatorList) := by
  induction L generalizing st with
  | nil => exact ⟨h, rfl, fun hm => hm⟩
  | cons w L ih =>
    simp only [List.foldl_cons]
    by_cases hvw : v = w
    · subst hvw
      rw [remove_validator_of_none h]
      exact ih st h
    · have h' : (remove_validator w st).trustScores v = none := by
        rw [remove_validator_other_entry w st hvw]; exact h
      obtain ⟨a, b, c⟩ := ih (remove_validator w st) h'
      refine ⟨a, ?_, ?_⟩
      · rw [b, remove_validator_countP_other w st hvw]
      · intro hm
        exact c (remove_validator_not_mem w st hm)

lemma remove_validator_removes {v : AccountId} {st : TrustState} {td : NodeTrustData}
    (htd : st.trustScores v = some td) (hflag : td.flagged_for_removal = true) :
    (remove_validator v st).trustScores v = none ∧
    v ∉ (remove_validator v st).validatorList ∧
    (remove_validator v st).events.countP (isValidatorRemoved v) =
      st.events.countP (isValidatorRemoved v) + 1 := by
  simp only [remove_validator, htd, hflag, if_true]
  refine ⟨by simp, ?_, ?_⟩
  · intro hmem
    have := List.of_mem_filter hmem
    simp at this
  · rw [List.countP_append]
    simp [List.countP, List.countP.go, isValidatorRemoved]

lemma foldl_remove_removes (L : List AccountId) (st : TrustState) (v : AccountId)
    (td : NodeTrustData) (hv : v ∈ L) (htd : st.trustScores v = some td)
    (hflag : td.flagged_for_removal = true) :
    (L.foldl (fun s w => remove_validator w s) st).trustScores v = none ∧
    v ∉ (L.foldl (fun s w => remove_validator w s) st).validatorList ∧
    (L.foldl (fun s w => remove_validator w s) st).events.countP (isValidatorRemoved v) =
      st.events.countP (isValidatorRemoved v) + 1 := by
  induction L generalizing st td with
  | nil => cases hv
  | cons w L ih =>
    simp only [List.foldl_cons]
    by_cases hvw : v = w
    · subst hvw
      obtain ⟨h1, h2, h3⟩ := remove_validator_removes htd hflag
      obtain ⟨a, b, c⟩ := foldl_remove_of_none L (remove_validator v st) v h1
      exact ⟨a, c h2, by rw [b, h3]⟩
    · rcases List.mem_cons.mp hv with heq | hmem
      · exact absurd heq hvw
      · have h' : (remove_validator w st).trustScores v = some td := by
          rw [remove_validator_other_entry w st hvw]; exact htd
        obtain ⟨a, b, c⟩ := ih (remove_validator w st) td hmem h' hflag
        exact ⟨a, b, by rw [c, remove_validator_countP_other w st hvw]⟩

/-! Helper lemmas for the roster and ledger consistency invariant. -/

lemma consistent_empty : RosterLedgerConsistent emptyState := by
  intro w; simp [emptyState]

lemma consistent_init {now : ℕ} {v : AccountId} {st st' : TrustState}
    (h : RosterLedgerConsistent st) (heq : initialize_validator now v st = .ok st') :
    RosterLedgerConsistent st' := by
  simp only [initialize_validator, insertScore, Except.ok.injEq] at heq
  subst heq
  intro w
  simp only [List.mem_append, List.mem_singleton]
  by_cases hwv : w = v
  · subst hwv; simp
  · simp only [hwv, if_false, or_false]
    simpa [hwv] using h w

lemma consistent_update {now : ℕ} {v : AccountId} {b : Bool} {st st' : TrustState}
    (h : RosterLedgerConsistent st) (heq : update_trust_score now v b st = .ok st') :
    RosterLedgerConsistent st' := by
  simp only [update_trust_score] at heq
  cases htd : st.trustScores v with
  | none => rw [htd] at heq; cases heq
  | some td =>
    rw [htd] at heq
    by_cases hf : td.flagged_for_removal
    · simp only [hf, if_true, Except.ok.injEq] at heq
      subst heq; exact h
    · simp only [hf, Bool.false_eq_true, if_false] at heq
      have key : ∀ (td' : NodeTrustData) (evs : List Event),
          st' = { insertScore v td' st with events := evs } →
          RosterLedgerConsistent st' := by
        rintro td' evs rfl
        intro w
        simp only [insertScore]
        by_cases hwv : w = v
        · subst hwv
          simpa [htd] using h w
        · simpa [hwv] using h w
      split at heq
      · cases heq
        exact key _ _ rfl
      · split at heq
        · cases heq; exact key _ _ rfl
        · cases heq; exact key _ _ rfl

lemma consistent_remove (w : AccountId) {st : TrustState}
    (h : RosterLedgerConsistent st) :
    RosterLedgerConsistent (remove_validator w st) := by
  simp only [remove_validator]
  cases hw : st.trustScores w with
  | none => exact h
  | some td =>
    by_cases hf : td.flagged_for_removal
    · simp only [hf, if_true]
      intro x
      simp only [List.mem_filter, decide_eq_true_eq]
      by_cases hxw : x = w
      · subst hxw; simp
      · simp only [hxw, if_false]
        constructor
        · rintro ⟨hx, _⟩; exact (h x).mp hx
        · intro hx; exact ⟨(h x).mpr hx, hxw⟩
    · simp only [hf, Bool.false_eq_true, if_false]; exact h

lemma consistent_cleanup {st st' : TrustState}
    (h : RosterLedgerConsistent st) (heq : cleanup_validators st = .ok st') :
    RosterLedgerConsistent st' := by
  simp only [cleanup_validators, Except.ok.injEq] at heq
  subst heq
  show RosterLedgerConsistent (cleanupState st)
  simp only [cleanupState]
  generalize (st.validatorList.filter _) = L
  induction L generalizing st with
  | nil => exact h
  | cons w L ih =>
    simp only [List.foldl_cons]
    exact ih (consistent_remove w h)

/-! Helper lemmas about `get_validators_by_trust`. -/

lemma perm_pair_cases {α : Type} {l : List α} {x y : α} (h : l.Perm [x, y]) :
    l = [x, y] ∨ l = [y, x] := by
  obtain ⟨a, b, rfl⟩ := List.length_eq_two.mp (by simpa using h.length_eq)
  have ha : a ∈ [x, y] := h.mem_iff.mp (show a ∈ [a, b] by simp)
  simp only [List.mem_cons, List.mem_singleton, List.not_mem_nil, or_false] at ha
  rcases ha with rfl | rfl
  · left
    have hb := h.cons_inv
    rw [List.perm_singleton] at hb
    rw [hb]
  · right
    have h2 : [a, b].Perm [a, x] := h.trans (List.Perm.swap a x [])
    have hb := h2.cons_inv
    rw [List.perm_singleton] at hb
    rw [hb]

lemma gvbt_perm (st : TrustState) :
    (get_validators_by_trust st).Perm
      (st.validatorList.filterMap (fun validator =>
        (get_trust_score validator st).map (fun score => (validator, score)))) :=
  List.mergeSort_perm _ _

lemma gvbt_sorted (st : TrustState) :
    List.Pairwise (fun a b : AccountId × ℝ => b.2 ≤ a.2) (get_validators_by_trust st) := by
  have h := @List.sorted_mergeSort (AccountId × ℝ)
    (fun a b : AccountId × ℝ => decide (b.2 ≤ a.2))
    (fun a b c h1 h2 => by
      simp only [decide_eq_true_eq] at h1 h2 ⊢
      exact le_trans h2 h1)
    (fun a b => by
      simp only [Bool.or_eq_true, decide_eq_true_eq]
      exact le_total b.2 a.2)
    (st.validatorList.filterMap (fun validator =>
      (get_trust_score validator st).map (fun score => (validator, score))))
  exact h.imp (fun hab => by simpa using hab)

/-! The claims. -/

/-- Claim C1, counterexample.  The claim states that the score written by
either branch of `update_trust_score` equals `clamp(s ± delta, 0.0, 1.0)`
and that ledger scores always satisfy `0.0 ≤ trust_score ≤ 1.0`.  On a
ledger record with the in-range score `0.3999`, a failed vote writes the
score `4.3989`, while the clamped value is `1`, and `4.3989 > 1`: the
decrease branch applies only `.max(0.0)` and no upper clamp. -/
theorem update_writes_unclamped_score_cex :
    (update_trust_score 7 1 false stC1).map (get_trust_score 1) =
      .ok (some 4.3989) ∧
    min (max ((0.3999 : ℝ) - decrease_fn 0.3999) 0) 1 = 1 ∧
    (4.3989 : ℝ) ≠ 1 ∧ (4.3989 : ℝ) > 1 := by
  refine ⟨?_, ?_, by norm_num, by norm_num⟩
  · simp only [update_trust_score, stC1, decrease_fn, insertScore, get_trust_score,
      Except.map, Option.map]
    norm_num
  · simp only [decrease_fn]
    norm_num

/-- Claim C1, amended.  For any score `0 ≤ s ≤ 1`, the increase branch
writes `min(s + increase_fn s, 1)`, which does equal
`clamp(s + increase_fn s, 0, 1)`; the decrease branch writes
`max(s - decrease_fn s, 0)` with no upper clamp, which equals the clamped
value exactly when `s - decrease_fn s ≤ 1`, and at `s = 0.3999` the written
score exceeds `1`, so the code does not enforce the upper bound of the
stated invariant. -/
theorem clamp_behaviour_of_update_branches (s : ℝ) (h0 : 0 ≤ s) (h1 : s ≤ 1) :
    min (s + increase_fn s) 1 = min (max (s + increase_fn s) 0) 1 ∧
    (max (s - decrease_fn s) 0 = min (max (s - decrease_fn s) 0) 1 ↔
      s - decrease_fn s ≤ 1) ∧
    1 < max ((0.3999 : ℝ) - decrease_fn 0.3999) 0 := by
  refine ⟨?_, ?_, ?_⟩
  · rw [max_eq_left]
    have := Real.exp_pos (2.5 * s)
    simp only [increase_fn]
    nlinarith
  · rw [eq_comm, min_eq_left_iff, max_le_iff]
    constructor
    · exact fun h => h.1
    · exact fun h => ⟨h, by norm_num⟩
  · rw [max_eq_left] <;> simp only [decrease_fn] <;> norm_num

/-- Witness for the amended claim C1, at the neutral score `0.5`. -/
theorem clamp_behaviour_of_update_branches_witness :
    (0 ≤ (0.5 : ℝ) ∧ (0.5 : ℝ) ≤ 1) ∧
    (min ((0.5 : ℝ) + increase_fn 0.5) 1 = min (max ((0.5 : ℝ) + increase_fn 0.5) 0) 1 ∧
     (max ((0.5 : ℝ) - decrease_fn 0.5) 0 =
        min (max ((0.5 : ℝ) - decrease_fn 0.5) 0) 1 ↔
       (0.5 : ℝ) - decrease_fn 0.5 ≤ 1) ∧
     1 < max ((0.3999 : ℝ) - decrease_fn 0.3999) 0) :=
  ⟨⟨by norm_num, by norm_num⟩,
   clamp_behaviour_of_update_branches 0.5 (by norm_num) (by norm_num)⟩

/-- Claim C2, counterexample.  The claim states that `initialize_validator`
fails with `AlreadyExists` on a present id and leaves Ledger and Roster
unchanged.  With validator `1` already present (state `stInit1`), the call
succeeds, the Roster becomes `[1, 1]` (changed), and the record is
overwritten (`last_updated` changes from `0` to `5`). -/
theorem initialize_existing_succeeds_cex :
    (initialize_validator 5 1 stInit1).isOk = true ∧
    (initialize_validator 5 1 stInit1).map (fun s => s.validatorList) = .ok [1, 1] ∧
    ([1, 1] : List AccountId) ≠ [1] ∧
    (initialize_validator 5 1 stInit1).map (fun s =>
      (s.trustScores 1).map (fun d => d.last_updated)) = .ok (some 5) ∧
    (stInit1.trustScores 1).map (fun d => d.last_updated) = some 0 := by
  refine ⟨rfl, ?_, by decide, ?_, ?_⟩
  · simp [initialize_validator, insertScore, stInit1, Except.map]
  · simp [initialize_validator, insertScore, stInit1, Except.map]
  · simp [stInit1, tdInit]

/-- Claim C2, amended.  `initialize_validator` never fails on a present id
(the error enum has no `AlreadyExists` variant): it returns `Ok`, overwrites
the Ledger record with a fresh one (score `0.5`, zero counters, unflagged,
`last_updated = now`), and appends the id to the Roster again, so the Roster
then holds the id at least twice. -/
theorem initialize_overwrites_existing (now : ℕ) (v : AccountId) (st : TrustState)
    (hsome : (st.trustScores v).isSome) (hmem : v ∈ st.validatorList) :
    (initialize_validator now v st).map (fun s => s.validatorList) =
      .ok (st.validatorList ++ [v]) ∧
    2 ≤ (st.validatorList ++ [v]).count v ∧
    (initialize_validator now v st).map (fun s =>
        (s.trustScores v).map (fun d =>
          (d.trust_score, d.successful_validations, d.failed_validations,
           d.last_updated, d.flagged_for_removal))) =
      .ok (some (0.5, 0, 0, now, false)) := by
  refine ⟨?_, ?_, ?_⟩
  · simp [initialize_validator, insertScore, Except.map]
  · rw [List.count_append]
    have h1 : 0 < st.validatorList.count v := List.count_pos_iff.mpr hmem
    have h2 : ([v] : List AccountId).count v = 1 := by simp
    omega
  · simp [initialize_validator, insertScore, Except.map]

/-- Witness for the amended claim C2, re-initializing validator `1` of
`stInit1` at block `9`. -/
theorem initialize_overwrites_existing_witness :
    ((stInit1.trustScores 1).isSome ∧ 1 ∈ stInit1.validatorList) ∧
    ((initialize_validator 9 1 stInit1).map (fun s => s.validatorList) =
       .ok (stInit1.validatorList ++ [1]) ∧
     2 ≤ (stInit1.validatorList ++ [1]).count 1 ∧
     (initialize_validator 9 1 stInit1).map (fun s =>
         (s.trustScores 1).map (fun d =>
           (d.trust_score, d.successful_validations, d.failed_validations,
            d.last_updated, d.flagged_for_removal))) =
       .ok (some (0.5, 0, 0, 9, false))) :=
  ⟨⟨rfl, by simp [stInit1]⟩,
   initialize_overwrites_existing 9 1 stInit1 rfl (by simp [stInit1])⟩

/-- Claim C3.  For a ledger record with score `s` strictly between `0` and
`0.4`, `decrease_fn s` is negative, and a failed vote
(`update_trust_score _ _ false`) writes the strictly larger score
`s - decrease_fn s`. -/
theorem decrease_negative_raises_score (st : TrustState) (v : AccountId) (now : ℕ)
    (td : NodeTrustData) (htd : st.trustScores v = some td)
    (hflag : td.flagged_for_removal = false)
    (h0 : 0 < td.trust_score) (h4 : td.trust_score < 0.4) :
    decrease_fn td.trust_score < 0 ∧
    (update_trust_score now v false st).map (get_trust_score v) =
      .ok (some (td.trust_score - decrease_fn td.trust_score)) ∧
    td.trust_score < td.trust_score - decrease_fn td.trust_score := by
  have hneg : decrease_fn td.trust_score < 0 := by
    simp only [decrease_fn]
    have hd : 0 < 1 - 2.5 * td.trust_score := by nlinarith
    have hd1 : 1 - 2.5 * td.trust_score < 1 := by nlinarith
    have : 1 < 1 / (1 - 2.5 * td.trust_score) := (one_lt_div hd).mpr hd1
    nlinarith
  have hmax : max (td.trust_score - decrease_fn td.trust_score) 0 =
      td.trust_score - decrease_fn td.trust_score :=
    max_eq_left (by nlinarith)
  refine ⟨hneg, ?_, by nlinarith⟩
  simp only [update_trust_score, htd, hflag, Bool.false_eq_true, if_false,
    insertScore, hmax]
  split <;> simp [get_trust_score, Except.map, Option.map]

/-- Witness for claim C3, at the concrete score `0.2`
(`decrease_fn 0.2 = -0.001`). -/
theorem decrease_negative_raises_score_witness :
    (stLow.trustScores 1 = some tdLow ∧ tdLow.flagged_for_removal = false ∧
     0 < tdLow.trust_score ∧ tdLow.trust_score < 0.4) ∧
    (decrease_fn tdLow.trust_score < 0 ∧
     (update_trust_score 4 1 false stLow).map (get_trust_score 1) =
       .ok (some (tdLow.trust_score - decrease_fn tdLow.trust_score)) ∧
     tdLow.trust_score < tdLow.trust_score - decrease_fn tdLow.trust_score) :=
  ⟨⟨rfl, rfl, by norm_num [tdLow], by norm_num [tdLow]⟩,
   decrease_negative_raises_score stLow 1 4 tdLow rfl rfl
     (by norm_num [tdLow]) (by norm_num [tdLow])⟩

/-- Claim C4.  On a record with `flagged_for_removal = true`,
`update_trust_score` returns `Ok(())` and the state is exactly unchanged:
score, counters, `last_updated`, the flag, and the event list are all
untouched, for either value of `vote_matched`. -/
theorem update_flagged_noop (st : TrustState) (v : AccountId) (b : Bool) (now : ℕ)
    (td : NodeTrustData) (htd : st.trustScores v = some td)
    (hflag : td.flagged_for_removal = true) :
    update_trust_score now v b st = .ok st := by
  simp only [update_trust_score, htd, hflag, if_true]

/-- Witness for claim C4 on the flagged state `stFlag`. -/
theorem update_flagged_noop_witness :
    (stFlag.trustScores 1 = some tdFlag ∧ tdFlag.flagged_for_removal = true) ∧
    update_trust_score 2 1 true stFlag = .ok stFlag :=
  ⟨⟨rfl, rfl⟩, update_flagged_noop stFlag 1 true 2 tdFlag rfl rfl⟩

/-- Claim C5.  A failed vote on an unflagged record whose resulting score
falls below `0.1` returns `Ok`, sets the flag, increments
`failed_validations`, sets `last_updated`, emits `ValidatorRemoved`
immediately (followed by `ValidationFailed` and `TrustScoreUpdated`), and
leaves the record in the Ledger and the id in the Roster. -/
theorem failing_update_flags_and_announces (st : TrustState) (v : AccountId)
    (now : ℕ) (td : NodeTrustData) (htd : st.trustScores v = some td)
    (hflag : td.flagged_for_removal = false)
    (hres : max (td.trust_score - decrease_fn td.trust_score) 0 < 0.1) :
    (update_trust_score now v false st).map (fun s' =>
        (s'.trustScores v).map (fun d =>
          (d.trust_score, d.flagged_for_removal, d.successful_validations,
           d.failed_validations, d.last_updated))) =
      .ok (some (max (td.trust_score - decrease_fn td.trust_score) 0, true,
        td.successful_validations, td.failed_validations + 1, now)) ∧
    (update_trust_score now v false st).map (fun s' => s'.events) =
      .ok (st.events ++
        [Event.ValidatorRemoved v,
         Event.ValidationFailed v (max (td.trust_score - decrease_fn td.trust_score) 0),
         Event.TrustScoreUpdated v (max (td.trust_score - decrease_fn td.trust_score) 0)]) ∧
    (update_trust_score now v false st).map (fun s' => s'.validatorList) =
      .ok st.validatorList := by
  refine ⟨?_, ?_, ?_⟩ <;>
    simp only [update_trust_score, htd, hflag, Bool.false_eq_true, if_false,
      insertScore, hres, if_true, Except.map, Option.map, if_pos, reduceIte]

/-- Witness for claim C5 on the unflagged score-`0.05` state `stTiny`. -/
theorem failing_update_flags_and_announces_witness :
    (stTiny.trustScores 1 = some tdTiny ∧ tdTiny.flagged_for_removal = false ∧
     max (tdTiny.trust_score - decrease_fn tdTiny.trust_score) 0 < 0.1) ∧
    ((update_trust_score 6 1 false stTiny).map (fun s' =>
         (s'.trustScores 1).map (fun d =>
           (d.trust_score, d.flagged_for_removal, d.successful_validations,
            d.failed_validations, d.last_updated))) =
       .ok (some (max (tdTiny.trust_score - decrease_fn tdTiny.trust_score) 0, true,
         tdTiny.successful_validations, tdTiny.failed_validations + 1, 6)) ∧
     (update_trust_score 6 1 false stTiny).map (fun s' => s'.events) =
       .ok (stTiny.events ++
         [Event.ValidatorRemoved 1,
          Event.ValidationFailed 1
            (max (tdTiny.trust_score - decrease_fn tdTiny.trust_score) 0),
          Event.TrustScoreUpdated 1
            (max (tdTiny.trust_score - decrease_fn tdTiny.trust_score) 0)]) ∧
     (update_trust_score 6 1 false stTiny).map (fun s' => s'.validatorList) =
       .ok stTiny.validatorList) :=
  ⟨⟨rfl, rfl, by norm_num [tdTiny, decrease_fn]⟩,
   failing_update_flags_and_announces stTiny 1 6 tdTiny rfl rfl
     (by norm_num [tdTiny, decrease_fn])⟩

/-- Claim C6.  After `cleanup_validators`, a validator whose record was
flagged (and which, per the roster invariant, was listed in the Roster) is
gone from the Ledger and the Roster, and `get_trust_score` on it returns
`none`. -/
theorem cleanup_removes_flagged (st : TrustState) (v : AccountId)
    (td : NodeTrustData) (htd : st.trustScores v = some td)
    (hflag : td.flagged_for_removal = true) (hmem : v ∈ st.validatorList) :
    cleanup_validators st = .ok (cleanupState st) ∧
    (cleanupState st).trustScores v = none ∧
    v ∉ (cleanupState st).validatorList ∧
    get_trust_score v (cleanupState st) = none := by
  have hfilter : v ∈ st.validatorList.filter (fun w =>
      match st.trustScores w with
      | some data => data.flagged_for_removal
      | none => false) := by
    rw [List.mem_filter]
    exact ⟨hmem, by simp [htd, hflag]⟩
  obtain ⟨a, b, c⟩ := foldl_remove_removes _ st v td hfilter htd hflag
  have ha : (cleanupState st).trustScores v = none := a
  have hb : v ∉ (cleanupState st).validatorList := b
  exact ⟨rfl, ha, hb, by simp [get_trust_score, ha]⟩

/-- Witness for claim C6 on the flagged state `stFlag`. -/
theorem cleanup_removes_flagged_witness :
    (stFlag.trustScores 1 = some tdFlag ∧ tdFlag.flagged_for_removal = true ∧
     1 ∈ stFlag.validatorList) ∧
    (cleanup_validators stFlag = .ok (cleanupState stFlag) ∧
     (cleanupState stFlag).trustScores 1 = none ∧
     1 ∉ (cleanupState stFlag).validatorList ∧
     get_trust_score 1 (cleanupState stFlag) = none) :=
  ⟨⟨rfl, rfl, by simp [stFlag]⟩,
   cleanup_removes_flagged stFlag 1 tdFlag rfl rfl (by simp [stFlag])⟩

/-- Claim C7.  At every reachable state (any sequence of completed
`initialize_validator`, `update_trust_score`, `cleanup_validators` calls
from the empty state) the identities in the Roster are exactly the keys of
the Trust Ledger. -/
theorem roster_matches_ledger_of_reachable (st : TrustState) (h : Reachable st) :
    ∀ w : AccountId, w ∈ st.validatorList ↔ (st.trustScores w).isSome := by
  induction h with
  | empty => exact consistent_empty
  | init now v st st' _ heq ih => exact consistent_init ih heq
  | update now v b st st' _ heq ih => exact consistent_update ih heq
  | cleanup st st' _ heq ih => exact consistent_cleanup ih heq

/-- Witness for claim C7, at the reachable state `stInit1` and id `1`. -/
theorem roster_matches_ledger_of_reachable_witness :
    Reachable stInit1 ∧
    (1 ∈ stInit1.validatorList ↔ (stInit1.trustScores 1).isSome) := by
  have hinit : initialize_validator 0 1 emptyState = .ok stInit1 := by
    simp only [initialize_validator, insertScore, emptyState, stInit1, tdInit,
      List.nil_append]
  have hr : Reachable stInit1 :=
    Reachable.init 0 1 emptyState stInit1 Reachable.empty hinit
  exact ⟨hr, roster_matches_ledger_of_reachable stInit1 hr 1⟩

/-- Claim C8.  `get_validators_by_trust` returns one pair per roster id with
a resolvable ledger entry (a permutation of the projection of the roster),
its score sequence is non-increasing, and on the concrete two-validator
state `stC8` (scores `0.7` and `0.3`, the low one listed first in the
roster) the `0.7` validator comes strictly first. -/
theorem validators_by_trust_sorted_desc :
    (∀ st : TrustState,
      (get_validators_by_trust st).Perm
        (st.validatorList.filterMap (fun validator =>
          (get_trust_score validator st).map (fun score => (validator, score)))) ∧
      List.Pairwise (fun a b : AccountId × ℝ => b.2 ≤ a.2)
        (get_validators_by_trust st)) ∧
    get_validators_by_trust stC8 = [(1, 0.7), (2, 0.3)] := by
  refine ⟨fun st => ⟨gvbt_perm st, gvbt_sorted st⟩, ?_⟩
  have hfm : stC8.validatorList.filterMap (fun validator =>
      (get_trust_score validator stC8).map (fun score => (validator, score))) =
      [(2, 0.3), (1, 0.7)] := by
    simp [stC8, get_trust_score]
  have hperm := (gvbt_perm stC8).trans (by rw [hfm])
  have hsorted := gvbt_sorted stC8
  rcases perm_pair_cases hperm with heq | heq
  · rw [heq] at hsorted
    simp only [List.pairwise_cons] at hsorted
    have := hsorted.1 (1, 0.7) (by simp)
    norm_num at this
  · exact heq

/-- Claim C9.  Starting from a freshly initialized validator (score `0.5`,
zero counters), a matching vote yields the score
`0.5 + 0.001 * (0.5 * e^1.25)` and `successful_validations = 1`. -/
theorem update_true_from_fresh_score :
    initialize_validator 0 1 emptyState = .ok stInit1 ∧
    (update_trust_score 3 1 true stInit1).map (fun s' =>
        (s'.trustScores 1).map (fun d => (d.trust_score, d.successful_validations))) =
      .ok (some (0.5 + 0.001 * (0.5 * Real.exp 1.25), 1)) := by
  constructor
  · simp only [initialize_validator, insertScore, emptyState, stInit1, tdInit,
      List.nil_append]
  · have hexp : Real.exp 1.25 < 8 := by
      have h2 : Real.exp 1.25 ≤ Real.exp 2 := Real.exp_le_exp.mpr (by norm_num)
      have h1 : Real.exp 2 = Real.exp 1 * Real.exp 1 := by
        rw [← Real.exp_add]; norm_num
      nlinarith [Real.exp_one_lt_d9, Real.exp_pos 1]
    have hexp' : Real.exp (5 / 4) < 8 := by norm_num at hexp ⊢; linarith
    simp only [update_trust_score, stInit1, tdInit, increase_fn, insertScore,
      Except.map, Option.map]
    norm_num
    nlinarith [hexp', Real.exp_pos ((5 : ℝ) / 4)]

/-- Claim C10.  Removing a flagged validator during `cleanup_validators`
deposits `ValidatorRemoved` again, so its count grows by one at cleanup; on
the concrete run from `stTiny`, the failing vote deposits one
`ValidatorRemoved` at flag time and the cleanup a second one, two in
total. -/
theorem cleanup_emits_second_removed_event (st : TrustState) (v : AccountId)
    (td : NodeTrustData) (htd : st.trustScores v = some td)
    (hflag : td.flagged_for_removal = true) (hmem : v ∈ st.validatorList) :
    (cleanupState st).events.countP (isValidatorRemoved v) =
      st.events.countP (isValidatorRemoved v) + 1 ∧
    (update_trust_score 1 1 false stTiny).map (fun s1 =>
      s1.events.countP (isValidatorRemoved 1)) = .ok 1 ∧
    (update_trust_score 1 1 false stTiny).map (fun s1 =>
      (cleanupState s1).events.countP (isValidatorRemoved 1)) = .ok 2 := by
  refine ⟨?_, ?_, ?_⟩
  · have hfilter : v ∈ st.validatorList.filter (fun w =>
        match st.trustScores w with
        | some data => data.flagged_for_removal
        | none => false) := by
      rw [List.mem_filter]
      exact ⟨hmem, by simp [htd, hflag]⟩
    exact (foldl_remove_removes _ st v td hfilter htd hflag).2.2
  · simp only [update_trust_score, stTiny, tdTiny, decrease_fn, insertScore,
      Except.map]
    norm_num
    simp [List.countP, List.countP.go, isValidatorRemoved]
  · simp only [update_trust_score, stTiny, tdTiny, decrease_fn, insertScore,
      Except.map]
    norm_num
    simp [cleanupState, remove_validator, List.countP, List.countP.go,
      isValidatorRemoved]

/-- Witness for claim C10 on the flagged state `stFlag`. -/
theorem cleanup_emits_second_removed_event_witness :
    (stFlag.trustScores 1 = some tdFlag ∧ tdFlag.flagged_for_removal = true ∧
     1 ∈ stFlag.validatorList) ∧
    ((cleanupState stFlag).events.countP (isValidatorRemoved 1) =
       stFlag.events.countP (isValidatorRemoved 1) + 1 ∧
     (update_trust_score 1 1 false stTiny).map (fun s1 =>
       s1.events.countP (isValidatorRemoved 1)) = .ok 1 ∧
     (update_trust_score 1 1 false stTiny).map (fun s1 =>
       (cleanupState s1).events.countP (isValidatorRemoved 1)) = .ok 2) :=
  ⟨⟨rfl, rfl, by simp [stFlag]⟩,
   cleanup_emits_second_removed_event stFlag 1 tdFlag rfl rfl (by simp [stFlag])⟩

end TrustScore
